import Mathlib

/-!
Verification of the session/stream orchestration layer of the
realtime-painting server.

The development shallowly embeds the Python sources:

* `app/connection_manager.py` — per-session queues with a drain policy
  (`ConnectionManager`, `update_data`, `get_latest_data`, `receive_message`);
* `app/api/session_base.py` — the websocket protocol loop
  (timeout handling, `clear_canvas` handling) and the streaming generator;
* `app/services/session_service.py` — config override merging
  (`_apply_overrides`), pipeline (re)initialization and `reload`.

Python `asyncio.Queue` objects are embedded as Lean lists whose head is the
front of the queue (`put` appends at the back, `get_nowait` pops the head).
A dequeue that would suspend on an empty queue is represented by the explicit
`DequeueResult.blocked` outcome.  Python dicts are embedded as association
lists with first-match lookup; all mutation is explicit state passing.
-/

/-! ## Association-list helpers (embedding of Python dict operations) -/

/-- First-match association lookup; embeds `d.get(k)` on a Python dict
(whose keys are unique, so first match is the only match). -/
def assocLookup {κ β : Type} [DecidableEq κ] : List (κ × β) → κ → Option β
  | [], _ => none
  | (k, v) :: rest, k0 => if k = k0 then some v else assocLookup rest k0

/-- Replace the value stored at a key, leaving the list unchanged when the
key is absent.  Embeds mutating an existing dict entry in place. -/
def assocSet {κ β : Type} [DecidableEq κ] : List (κ × β) → κ → β → List (κ × β)
  | [], _, _ => []
  | (k, v) :: rest, k0, v0 => if k = k0 then (k, v0) :: rest else (k, v) :: assocSet rest k0 v0

/-- Embeds `target[key] = value` on a Python dict: update the entry in place
if the key exists, otherwise append a new entry. -/
def dictSet {β : Type} : List (String × β) → String → β → List (String × β)
  | [], k, v => [(k, v)]
  | (k0, v0) :: rest, k, v => if k0 = k then (k0, v) :: rest else (k0, v0) :: dictSet rest k v

/-- Embeds `target.pop(key, None)` on a Python dict: remove the entry for the
key.  (On a canonical dict the key occurs at most once, so removing every
occurrence coincides with Python's single removal.) -/
def dictPop {β : Type} : List (String × β) → String → List (String × β)
  | [], _ => []
  | (k0, v0) :: rest, k => if k0 = k then dictPop rest k else (k0, v0) :: dictPop rest k

theorem assocLookup_assocSet_self {κ β : Type} [DecidableEq κ]
    (l : List (κ × β)) (k : κ) (v v0 : β) (h : assocLookup l k = some v0) :
    assocLookup (assocSet l k v) k = some v := by
  induction l with
  | nil => simp [assocLookup] at h
  | cons hd tl ih =>
    obtain ⟨k1, v1⟩ := hd
    by_cases hk : k1 = k
    · subst hk
      simp [assocLookup, assocSet]
    · simp [assocLookup, assocSet, hk] at h ⊢
      exact ih h

theorem dictSet_lookup_self {β : Type} (l : List (String × β)) (k : String) (v : β) :
    assocLookup (dictSet l k v) k = some v := by
  induction l with
  | nil => simp [dictSet, assocLookup]
  | cons hd tl ih =>
    obtain ⟨k1, v1⟩ := hd
    by_cases hk : k1 = k
    · subst hk
      simp [dictSet, assocLookup]
    · simp [dictSet, assocLookup, hk, ih]

theorem dictSet_lookup_other {β : Type} (l : List (String × β)) (k k1 : String) (v : β)
    (hk : k ≠ k1) : assocLookup (dictSet l k v) k1 = assocLookup l k1 := by
  induction l with
  | nil => simp [dictSet, assocLookup, hk]
  | cons hd tl ih =>
    obtain ⟨k2, v2⟩ := hd
    by_cases h2 : k2 = k
    · subst h2
      simp [dictSet, assocLookup, hk]
    · simp [dictSet, assocLookup, h2, ih]

theorem dictPop_lookup_self {β : Type} (l : List (String × β)) (k : String) :
    assocLookup (dictPop l k) k = none := by
  induction l with
  | nil => simp [dictPop, assocLookup]
  | cons hd tl ih =>
    obtain ⟨k1, v1⟩ := hd
    by_cases hk : k1 = k
    · simp [dictPop, hk, ih]
    · simp [dictPop, assocLookup, hk, ih]

theorem dictPop_lookup_other {β : Type} (l : List (String × β)) (k k1 : String)
    (hk : k ≠ k1) : assocLookup (dictPop l k) k1 = assocLookup l k1 := by
  induction l with
  | nil => simp [dictPop]
  | cons hd tl ih =>
    obtain ⟨k2, v2⟩ := hd
    by_cases h2 : k2 = k
    · subst h2
      simp [dictPop, assocLookup, hk, ih]
    · simp [dictPop, assocLookup, h2, ih]

/-- Last-match association lookup: the binding that wins when a Python
`for key, value in overrides.items()` loop applies entries in order. -/
def lastAssoc {β : Type} (l : List (String × β)) (k : String) : Option β :=
  assocLookup l.reverse k

theorem assocLookup_append {κ β : Type} [DecidableEq κ]
    (l1 l2 : List (κ × β)) (k : κ) :
    assocLookup (l1 ++ l2) k =
      match assocLookup l1 k with
      | some v => some v
      | none => assocLookup l2 k := by
  induction l1 with
  | nil => simp [assocLookup]
  | cons hd tl ih =>
    obtain ⟨k1, v1⟩ := hd
    by_cases hk : k1 = k
    · simp [assocLookup, hk]
    · simp [assocLookup, hk, ih]

/-! ## Connection manager (`app/connection_manager.py`) -/

/-- The `drain_strategy` constructor argument of `ConnectionManager`. -/
inductive DrainStrategy where
  | latest
  | all
deriving DecidableEq, Repr

/-- Session identifiers (UUIDs in the source). -/
abbrev SessionId := Nat

/-- Embeds `ConnectionManager.__init__`: the drain strategy, the optional
`max_queue_depth` (validated positive at construction), and
`active_connections`, mapping each registered session id to its per-session
queue contents (head = oldest item).  The websocket handle stored alongside
each queue carries no queueing behaviour and is omitted. -/
structure ConnectionManager (α : Type) where
  drain_strategy : DrainStrategy
  max_queue_depth : Option Nat
  active_connections : List (SessionId × List α)
deriving DecidableEq, Repr

/-- The queue of a registered session (`active_connections.get(user_id)`). -/
def lookupQueue {α : Type} (m : ConnectionManager α) (id : SessionId) : Option (List α) :=
  assocLookup m.active_connections id

/-- Store a new queue state for a registered session; a no-op when the
session is absent, matching the `if user_session:` guards in the source. -/
def setQueue {α : Type} (m : ConnectionManager α) (id : SessionId) (q : List α) :
    ConnectionManager α :=
  { m with active_connections := assocSet m.active_connections id q }

/-- Embeds the overflow-eviction loop of `update_data`:
`while overflow > 0: queue.get_nowait()` pops `n` items from the front,
breaking out early (`except QueueEmpty`) if the queue empties. -/
def drainOverflow {α : Type} : Nat → List α → List α
  | 0, q => q
  | _ + 1, [] => []
  | n + 1, _ :: q => drainOverflow n q

/-- The queue transformation performed by `update_data` on a registered
session's queue: with a configured depth `d`, first evict
`overflow = qsize - d + 1` oldest entries (when positive), then `put` the
new item at the back. -/
def enqueueWithDepth {α : Type} (depth : Option Nat) (q : List α) (a : α) : List α :=
  (match depth with
   | none => q
   | some d => drainOverflow (q.length + 1 - d) q) ++ [a]

/-- Embeds `ConnectionManager.update_data`: look up the session, evict
overflow, enqueue; silently no-op for unknown sessions. -/
def update_data {α : Type} (m : ConnectionManager α) (id : SessionId) (a : α) :
    ConnectionManager α :=
  match lookupQueue m id with
  | none => m
  | some q => setQueue m id (enqueueWithDepth m.max_queue_depth q a)

/-- Embeds `ConnectionManager.should_block_for_data`. -/
def should_block_for_data {α : Type} (m : ConnectionManager α) : Bool :=
  m.drain_strategy = DrainStrategy.all

/-- Outcome of one `get_latest_data` call.  `blocked` stands for the
`await queue.get()` suspension on an empty queue (the call only resumes when
a later `update_data` supplies an item). -/
inductive DequeueResult (α : Type) where
  | value (a : α)
  | noData
  | blocked
deriving DecidableEq, Repr

/-- Embeds the `latest`-strategy drain loop of `get_latest_data`:
`while not queue.empty(): latest_data = queue.get_nowait()`, carrying the
`latest_data` accumulator. -/
def drainLatest {α : Type} : List α → Option α → Option α
  | [], acc => acc
  | a :: q, _ => drainLatest q (some a)

/-- Embeds `ConnectionManager.get_latest_data`, returning the observed result
together with the manager state after the call.  `wait = none` is the Python
default (`should_block_for_data` decides); unknown sessions yield `None`. -/
def get_latest_data {α : Type} (m : ConnectionManager α) (id : SessionId)
    (wait : Option Bool) : DequeueResult α × ConnectionManager α :=
  match lookupQueue m id with
  | none => (DequeueResult.noData, m)
  | some q =>
    let should_wait := wait.getD (should_block_for_data m)
    match m.drain_strategy with
    | DrainStrategy.latest =>
      match drainLatest q none with
      | some a => (DequeueResult.value a, setQueue m id [])
      | none =>
        (if should_wait then DequeueResult.blocked else DequeueResult.noData, m)
    | DrainStrategy.all =>
      match q with
      | [] => (if should_wait then DequeueResult.blocked else DequeueResult.noData, m)
      | a :: rest => (DequeueResult.value a, setQueue m id rest)

/-- Last element of a list, used to speak about the most recently enqueued
item. -/
def lastElem? {α : Type} : List α → Option α
  | [] => none
  | [a] => some a
  | _ :: b :: rest => lastElem? (b :: rest)

theorem lastElem?_append_singleton {α : Type} (l : List α) (a : α) :
    lastElem? (l ++ [a]) = some a := by
  induction l with
  | nil => rfl
  | cons hd tl ih =>
    cases tl with
    | nil => simp [lastElem?] at ih ⊢
    | cons b rest => simpa [lastElem?] using ih

theorem drainLatest_nonempty {α : Type} (q : List α) :
    ∀ (a : α) (acc : Option α), drainLatest (a :: q) acc = lastElem? (a :: q) := by
  induction q with
  | nil => intro a acc; rfl
  | cons b rest ih =>
    intro a acc
    have := ih b (some a)
    simpa [drainLatest, lastElem?] using this

theorem drainLatest_of_lastElem {α : Type} (q : List α) (l : α)
    (h : lastElem? q = some l) : ∀ acc, drainLatest q acc = some l := by
  cases q with
  | nil => exact Option.noConfusion h
  | cons a t =>
    intro acc
    rw [drainLatest_nonempty, h]

theorem drainOverflow_eq_drop {α : Type} :
    ∀ (n : Nat) (q : List α), drainOverflow n q = q.drop n := by
  intro n
  induction n with
  | zero => intro q; rfl
  | succ k ih =>
    intro q
    cases q with
    | nil => rfl
    | cons a rest => simpa [drainOverflow] using ih rest

theorem update_data_fields {α : Type} (m : ConnectionManager α) (id : SessionId) (a : α) :
    (update_data m id a).drain_strategy = m.drain_strategy ∧
    (update_data m id a).max_queue_depth = m.max_queue_depth := by
  unfold update_data
  cases lookupQueue m id <;> simp [setQueue]

theorem lookupQueue_setQueue_self {α : Type} (m : ConnectionManager α) (id : SessionId)
    (q q0 : List α) (h : lookupQueue m id = some q0) :
    lookupQueue (setQueue m id q) id = some q := by
  unfold lookupQueue setQueue at *
  exact assocLookup_assocSet_self _ _ _ _ h

theorem lookupQueue_update_data {α : Type} (m : ConnectionManager α) (id : SessionId)
    (q : List α) (a : α) (h : lookupQueue m id = some q) :
    lookupQueue (update_data m id a) id =
      some (enqueueWithDepth m.max_queue_depth q a) := by
  unfold update_data
  rw [h]
  exact lookupQueue_setQueue_self m id _ q h

theorem lookupQueue_foldl_update {α : Type} (id : SessionId) (xs : List α) :
    ∀ (m : ConnectionManager α) (q : List α), lookupQueue m id = some q →
      lookupQueue (xs.foldl (fun mm a => update_data mm id a) m) id =
        some (xs.foldl (fun qq a => enqueueWithDepth m.max_queue_depth qq a) q) ∧
      (xs.foldl (fun mm a => update_data mm id a) m).drain_strategy = m.drain_strategy ∧
      (xs.foldl (fun mm a => update_data mm id a) m).max_queue_depth = m.max_queue_depth := by
  induction xs with
  | nil => intro m q h; exact ⟨h, rfl, rfl⟩
  | cons x xs ih =>
    intro m q h
    have h1 := lookupQueue_update_data m id q x h
    have hf := update_data_fields m id x
    have hthis := ih (update_data m id x) (enqueueWithDepth m.max_queue_depth q x) h1
    rw [hf.1, hf.2] at hthis
    simp only [List.foldl_cons]
    exact hthis

theorem lastElem?_foldl_enqueue {α : Type} (d : Option Nat) (xs : List α) :
    ∀ (q : List α), xs ≠ [] →
      lastElem? (xs.foldl (fun qq a => enqueueWithDepth d qq a) q) = lastElem? xs := by
  induction xs with
  | nil => intro q h; exact absurd rfl h
  | cons x xs ih =>
    intro q _
    cases xs with
    | nil =>
      simp [enqueueWithDepth, lastElem?_append_singleton, lastElem?]
    | cons y ys =>
      have h2 : (y :: ys : List α) ≠ [] := by simp
      rw [List.foldl_cons, ih _ h2]
      rfl

/-- C1 helper: delivering the most recent item empties the queue. -/
theorem get_latest_data_latest_char {α : Type} (m : ConnectionManager α) (id : SessionId)
    (q : List α) (l : α) (hstrat : m.drain_strategy = DrainStrategy.latest)
    (hq : lookupQueue m id = some q) (hlast : lastElem? q = some l) :
    get_latest_data m id (some false) = (DequeueResult.value l, setQueue m id []) := by
  unfold get_latest_data
  rw [hq, hstrat]
  simp [drainLatest_of_lastElem q l hlast]

/-- C1: under the `latest` drain policy, for every registered session, any
sequence of `N ≥ 1` `update_data` calls followed by `get_latest_data` with
`wait = False` returns the most recently enqueued item and discards all older
queued items, and a second immediate `get_latest_data` with `wait = False`
returns no data. -/
theorem latest_drain_returns_newest_then_no_data {α : Type} (m : ConnectionManager α)
    (id : SessionId) (q xs : List α) (l : α)
    (hstrat : m.drain_strategy = DrainStrategy.latest)
    (hreg : lookupQueue m id = some q)
    (hlast : lastElem? xs = some l) :
    (get_latest_data (xs.foldl (fun mm a => update_data mm id a) m) id (some false)).1 =
      DequeueResult.value l ∧
    (get_latest_data
      (get_latest_data (xs.foldl (fun mm a => update_data mm id a) m) id (some false)).2
      id (some false)).1 = DequeueResult.noData := by
  have hxs : xs ≠ [] := by
    intro h
    rw [h] at hlast
    exact Option.noConfusion hlast
  obtain ⟨hq1, hs1, _⟩ := lookupQueue_foldl_update id xs m q hreg
  set m1 := xs.foldl (fun mm a => update_data mm id a) m with hm1
  have hstrat1 : m1.drain_strategy = DrainStrategy.latest := by rw [hs1, hstrat]
  have hlast1 : lastElem? (xs.foldl (fun qq a => enqueueWithDepth m.max_queue_depth qq a) q)
      = some l := by rw [lastElem?_foldl_enqueue _ _ _ hxs, hlast]
  have hcall := get_latest_data_latest_char m1 id _ l hstrat1 hq1 hlast1
  constructor
  · rw [hcall]
  · rw [hcall]
    have hq2 : lookupQueue (setQueue m1 id []) id = some [] :=
      lookupQueue_setQueue_self m1 id [] _ hq1
    unfold get_latest_data
    rw [hq2]
    have hstrat2 : (setQueue m1 id []).drain_strategy = DrainStrategy.latest := hstrat1
    rw [hstrat2]
    simp [drainLatest]

/-- Witness for C1 at a concrete manager: three enqueues, then the dequeue
returns 30 and the follow-up dequeue returns no data. -/
theorem latest_drain_returns_newest_then_no_data_witness :
    (get_latest_data
        (([10, 20, 30] : List Nat).foldl (fun mm a => update_data mm 0 a)
          (ConnectionManager.mk DrainStrategy.latest none [(0, [])])) 0 (some false)).1 =
      DequeueResult.value 30 ∧
    (get_latest_data
      (get_latest_data
        (([10, 20, 30] : List Nat).foldl (fun mm a => update_data mm 0 a)
          (ConnectionManager.mk DrainStrategy.latest none [(0, [])])) 0 (some false)).2
      0 (some false)).1 = DequeueResult.noData :=
  latest_drain_returns_newest_then_no_data
    (ConnectionManager.mk DrainStrategy.latest none [(0, [])]) 0 [] [10, 20, 30] 30
    rfl rfl rfl

/-- C2 helper: a dequeue under the `all` strategy pops the head of a
nonempty queue (both with and without waiting). -/
theorem get_latest_data_all_head {α : Type} (m : ConnectionManager α) (id : SessionId)
    (a : α) (rest : List α) (wait : Option Bool)
    (hstrat : m.drain_strategy = DrainStrategy.all)
    (hq : lookupQueue m id = some (a :: rest)) :
    get_latest_data m id wait = (DequeueResult.value a, setQueue m id rest) := by
  unfold get_latest_data
  rw [hq, hstrat]

/-- Amended C2: under the `all` drain policy with **no configured maximum
queue depth** (`max_queue_depth = None`, the constructor default and the
configuration of the repository's unit test), for every registered session
with an empty queue, enqueueing `a`, `b`, `c` via `update_data` and then
dequeuing three times via `get_latest_data` (default `wait`) yields `a`,
then `b`, then `c`, leaving the queue empty — exactly-once, in order. -/
theorem all_policy_unbounded_fifo {α : Type} (m : ConnectionManager α) (id : SessionId)
    (a b c : α)
    (hstrat : m.drain_strategy = DrainStrategy.all)
    (hd : m.max_queue_depth = none)
    (hreg : lookupQueue m id = some []) :
    (get_latest_data
        (update_data (update_data (update_data m id a) id b) id c) id none).1 =
      DequeueResult.value a ∧
    (get_latest_data
        (get_latest_data
          (update_data (update_data (update_data m id a) id b) id c) id none).2 id none).1 =
      DequeueResult.value b ∧
    (get_latest_data
        (get_latest_data
          (get_latest_data
            (update_data (update_data (update_data m id a) id b) id c) id none).2
          id none).2 id none).1 = DequeueResult.value c ∧
    lookupQueue
      (get_latest_data
        (get_latest_data
          (get_latest_data
            (update_data (update_data (update_data m id a) id b) id c) id none).2
          id none).2 id none).2 id = some [] := by
  have h1 := lookupQueue_update_data m id [] a hreg
  rw [hd] at h1
  have hf1 := update_data_fields m id a
  have h2 := lookupQueue_update_data (update_data m id a) id _ b h1
  rw [hf1.2, hd] at h2
  have hf2 := update_data_fields (update_data m id a) id b
  have h3 := lookupQueue_update_data (update_data (update_data m id a) id b) id _ c h2
  rw [hf2.2, hf1.2, hd] at h3
  have hf3 := update_data_fields (update_data (update_data m id a) id b) id c
  set m3 := update_data (update_data (update_data m id a) id b) id c with hm3
  have hs3 : m3.drain_strategy = DrainStrategy.all := by
    rw [hf3.1, hf2.1, hf1.1, hstrat]
  have hq3 : lookupQueue m3 id = some [a, b, c] := by
    simpa [enqueueWithDepth] using h3
  have hcall1 := get_latest_data_all_head m3 id a [b, c] none hs3 hq3
  have hq4 : lookupQueue (setQueue m3 id [b, c]) id = some [b, c] :=
    lookupQueue_setQueue_self m3 id [b, c] _ hq3
  have hs4 : (setQueue m3 id [b, c]).drain_strategy = DrainStrategy.all := hs3
  have hcall2 := get_latest_data_all_head (setQueue m3 id [b, c]) id b [c] none hs4 hq4
  have hq5 : lookupQueue (setQueue (setQueue m3 id [b, c]) id [c]) id = some [c] :=
    lookupQueue_setQueue_self _ id [c] _ hq4
  have hs5 : (setQueue (setQueue m3 id [b, c]) id [c]).drain_strategy = DrainStrategy.all := hs3
  have hcall3 := get_latest_data_all_head _ id c [] none hs5 hq5
  refine ⟨?_, ?_, ?_, ?_⟩
  · rw [hcall1]
  · rw [hcall1, hcall2]
  · rw [hcall1, hcall2, hcall3]
  · rw [hcall1, hcall2, hcall3]
    exact lookupQueue_setQueue_self _ id [] _ hq5

/-- Witness for amended C2 at a concrete unbounded `all`-policy manager. -/
theorem all_policy_unbounded_fifo_witness :
    (get_latest_data
        (update_data (update_data (update_data
          (ConnectionManager.mk DrainStrategy.all none [(0, ([] : List Nat))]) 0 1) 0 2) 0 3)
        0 none).1 = DequeueResult.value 1 ∧
    (get_latest_data
        (get_latest_data
          (update_data (update_data (update_data
            (ConnectionManager.mk DrainStrategy.all none [(0, ([] : List Nat))]) 0 1) 0 2) 0 3)
          0 none).2 0 none).1 = DequeueResult.value 2 ∧
    (get_latest_data
        (get_latest_data
          (get_latest_data
            (update_data (update_data (update_data
              (ConnectionManager.mk DrainStrategy.all none [(0, ([] : List Nat))]) 0 1) 0 2) 0 3)
            0 none).2 0 none).2 0 none).1 = DequeueResult.value 3 ∧
    lookupQueue
      (get_latest_data
        (get_latest_data
          (get_latest_data
            (update_data (update_data (update_data
              (ConnectionManager.mk DrainStrategy.all none [(0, ([] : List Nat))]) 0 1) 0 2) 0 3)
            0 none).2 0 none).2 0 none).2 0 = some [] :=
  all_policy_unbounded_fifo
    (ConnectionManager.mk DrainStrategy.all none [(0, [])]) 0 1 2 3 rfl rfl rfl

/-- Counterexample to C2 as stated: with the `all` drain policy but a bounded
queue depth of 1 — precisely the configuration the repository's runtime wiring
uses for the realtime service (`ConnectionManager(drain_strategy="all",
max_queue_depth=1)`) — enqueueing 1, 2, 3 and dequeuing returns 3, not the
first enqueued item 1: the older items were silently evicted. -/
theorem all_policy_claim_counterexample :
    (get_latest_data
        (update_data (update_data (update_data
          (ConnectionManager.mk DrainStrategy.all (some 1) [(0, ([] : List Nat))]) 0 1) 0 2) 0 3)
        0 none).1 = DequeueResult.value 3 ∧
    (DequeueResult.value 3 : DequeueResult Nat) ≠ DequeueResult.value 1 := by
  constructor
  · rfl
  · decide

/-- C10: for a `ConnectionManager` constructed with `max_queue_depth = d`
(`d ≥ 1`), under either drain policy, every `update_data` call on a
registered session first evicts oldest entries (a front `drop`) until at
most `d - 1` remain and then appends the new item, so the queue afterwards
holds at most `d` items. -/
theorem update_data_bounded_depth {α : Type} (m : ConnectionManager α) (id : SessionId)
    (d : Nat) (q : List α) (a : α)
    (hd : 1 ≤ d) (hdepth : m.max_queue_depth = some d)
    (hreg : lookupQueue m id = some q) :
    lookupQueue (update_data m id a) id = some (q.drop (q.length + 1 - d) ++ [a]) ∧
    (q.drop (q.length + 1 - d) ++ [a]).length ≤ d := by
  have h1 := lookupQueue_update_data m id q a hreg
  rw [hdepth] at h1
  constructor
  · simpa [enqueueWithDepth, drainOverflow_eq_drop] using h1
  · simp only [List.length_append, List.length_drop, List.length_singleton]
    omega

/-- Witness for C10: depth 1, a queue already holding two items; after the
enqueue the queue holds exactly the new item. -/
theorem update_data_bounded_depth_witness :
    lookupQueue
        (update_data (ConnectionManager.mk DrainStrategy.all (some 1) [(0, [5, 6])]) 0 7) 0 =
      some (([5, 6] : List Nat).drop ([5, 6].length + 1 - 1) ++ [7]) ∧
    (([5, 6] : List Nat).drop ([5, 6].length + 1 - 1) ++ [7]).length ≤ 1 :=
  update_data_bounded_depth
    (ConnectionManager.mk DrainStrategy.all (some 1) [(0, [5, 6])]) 0 1 [5, 6] 7
    (by decide) rfl rfl

/-! ## Missing manager attributes (`app/api/session_base.py` call sites)

The websocket clear-canvas handler calls `self._conn_manager.clear_session(...)`
and the streaming generator calls `self._conn_manager.is_session_cleared(...)`.
Python resolves these names dynamically, so we embed the attribute table of
`ConnectionManager` (its methods and the instance attributes set in
`__init__`) and model each call site's `getattr` explicitly: a name outside
the table raises `AttributeError`. -/

/-- The attributes of `app.connection_manager.ConnectionManager`: the
instance attributes assigned in `__init__` and the methods defined in the
class body, transcribed from the source. -/
def connectionManagerAttrs : List String :=
  ["active_connections", "_drain_strategy", "_max_queue_depth",
   "connect", "check_user", "update_data", "should_block_for_data",
   "get_latest_data", "delete_user", "get_user_count", "get_websocket",
   "disconnect", "send_json", "receive_json", "receive_bytes",
   "receive_message"]

/-- `getattr` success on a `ConnectionManager` instance. -/
def managerHasAttr (name : String) : Bool :=
  connectionManagerAttrs.contains name

/-- Observable effects of the `clear_canvas` branch of
`SessionAPI._handle_websocket_loop` for one decoded `clear_canvas` message. -/
structure ClearCanvasOutcome (α : Type) where
  queueAfter : List α
  clearedFlagSet : Bool
  ackSent : Bool
  enqueued : Option α
  loopContinues : Bool
deriving DecidableEq, Repr

/-- Embeds the `clear_canvas` branch of `SessionAPI._handle_websocket_loop`
(the `data.get("status") == "clear_canvas"` block).  Inside its `try`:
if the session is registered, the queue is drained to empty, then
`self._conn_manager.clear_session(session_id)` is called — an attribute
lookup on `ConnectionManager`.  If it resolved, the handler would mark the
session cleared, build a blank parameter object, enqueue it via
`update_data` (when a pipeline is present) and send the `canvas_cleared`
acknowledgment.  If the lookup raises `AttributeError`, the surrounding
`except Exception` swallows it: no flag, no enqueue, no acknowledgment.
Either way the branch ends in `continue`. -/
def handle_clear_canvas {α : Type} (registered pipelinePresent : Bool)
    (q : List α) (blank : α) : ClearCanvasOutcome α :=
  if registered then
    if managerHasAttr "clear_session" then
      { queueAfter := if pipelinePresent then [blank] else []
        clearedFlagSet := true
        ackSent := true
        enqueued := if pipelinePresent then some blank else none
        loopContinues := true }
    else
      { queueAfter := []
        clearedFlagSet := false
        ackSent := false
        enqueued := none
        loopContinues := true }
  else
    { queueAfter := q
      clearedFlagSet := false
      ackSent := true
      enqueued := none
      loopContinues := true }

/-- C4 (code bug): `ConnectionManager` has no `clear_session` attribute, so
for every registered session the `clear_canvas` branch drains the queue and
continues the loop, but the `AttributeError` raised by
`self._conn_manager.clear_session(...)` (swallowed by the branch's
`except Exception`) prevents both the sticky cleared flag and the
`canvas_cleared` acknowledgment the claim (and the code's own intent)
require. -/
theorem clear_canvas_drains_but_never_acks {α : Type} (pipelinePresent : Bool)
    (q : List α) (blank : α) :
    managerHasAttr "clear_session" = false ∧
    handle_clear_canvas true pipelinePresent q blank =
      { queueAfter := []
        clearedFlagSet := false
        ackSent := false
        enqueued := none
        loopContinues := true } := by
  constructor
  · rfl
  · simp [handle_clear_canvas, managerHasAttr, connectionManagerAttrs]

/-- Witness evaluating the C4 theorem at a concrete queue and blank value. -/
theorem clear_canvas_drains_but_never_acks_witness :
    managerHasAttr "clear_session" = false ∧
    handle_clear_canvas true true [1, 2] (0 : Nat) =
      { queueAfter := []
        clearedFlagSet := false
        ackSent := false
        enqueued := none
        loopContinues := true } :=
  clear_canvas_drains_but_never_acks true [1, 2] 0

/-- Outcome of one iteration of the streaming generator `generate()` in
`SessionAPI.stream_endpoint`. -/
inductive StreamStep (α : Type) where
  | terminated
  | emittedFrame (a : α)
  | skippedFrame
  | sleptContinued
  | waitedContinued
deriving DecidableEq, Repr

/-- Embeds one iteration of the streaming generator `generate()` in
`SessionAPI.stream_endpoint`, given the dequeue observation `dequeued`.
An uncaught Python exception inside the generator is the `Except.error`
case and terminates the stream.  When `dequeued` is `none`, the source
evaluates `params is None and self._conn_manager.is_session_cleared(...)`:
the attribute lookup precedes everything else on that path.  If it
resolved and the session was flagged cleared, the generator would build
blank parameters and fall through to `predict`/`pil_to_frame`; otherwise
the `latest` configuration (`wait_for_data = false`) sleeps and loops, and
the `all` configuration terminates when the session no longer exists, else
keeps waiting. -/
def stream_iteration {α : Type} (clientDisconnected wait_for_data registered
    clearedFlag : Bool) (dequeued : Option α) (blank : α)
    (predict : α → Option α) : Except String (StreamStep α) :=
  if clientDisconnected then Except.ok StreamStep.terminated
  else
    match dequeued with
    | none =>
      if managerHasAttr "is_session_cleared" then
        if clearedFlag then
          match predict blank with
          | some img => Except.ok (StreamStep.emittedFrame img)
          | none => Except.ok StreamStep.skippedFrame
        else if wait_for_data = false then Except.ok StreamStep.sleptContinued
        else if registered = false then Except.ok StreamStep.terminated
        else Except.ok StreamStep.waitedContinued
      else Except.error "AttributeError: is_session_cleared"
    | some p =>
      match predict p with
      | some img => Except.ok (StreamStep.emittedFrame img)
      | none => Except.ok StreamStep.skippedFrame

/-- C3 (code bug): `ConnectionManager` has no `is_session_cleared`
attribute, so any stream iteration in which no fresh parameter object is
available (in particular the first iteration after a `clear_canvas`)
raises an uncaught `AttributeError` that terminates the stream, instead of
synthesizing a blank placeholder frame. -/
theorem stream_iteration_no_data_raises {α : Type} (wait_for_data registered
    clearedFlag : Bool) (blank : α) (predict : α → Option α) :
    managerHasAttr "is_session_cleared" = false ∧
    stream_iteration false wait_for_data registered clearedFlag none blank predict =
      Except.error "AttributeError: is_session_cleared" := by
  constructor
  · rfl
  · simp [stream_iteration, managerHasAttr, connectionManagerAttrs]

/-- Witness evaluating the C3 theorem at concrete inputs (the canvas
configuration: `wait_for_data = false`, registered, cleared flag
hypothetically set, predict always succeeding). -/
theorem stream_iteration_no_data_raises_witness :
    managerHasAttr "is_session_cleared" = false ∧
    stream_iteration false false true true none (0 : Nat) (fun a => some a) =
      Except.error "AttributeError: is_session_cleared" :=
  stream_iteration_no_data_raises false true true 0 (fun a => some a)

/-! ## Websocket loop timeout (`SessionAPI._handle_websocket_loop`)

The loop assigns `last_time = asyncio.get_event_loop().time()` once, before
entering `while True`, and the loop body never reassigns it; each iteration
starts by checking `timeout > 0 and now - last_time > timeout` and, when the
check fires, sends a `{"status": "timeout"}` message, disconnects the session
and returns.  Event-loop times are embedded as integers. -/

/-- One loop iteration, described by the event-loop time at which its
timeout check runs and the time at which its inbound message arrives
(the session's inbound activity). -/
structure WsIteration where
  check_time : Int
  recv_time : Int
deriving DecidableEq, Repr

/-- The timeout condition of `_handle_websocket_loop`:
`self._config.get("timeout", 0) > 0 and now - last_time > timeout`. -/
def timeout_fires (timeout check_time last_time : Int) : Bool :=
  timeout > 0 && check_time - last_time > timeout

/-- Runs the loop's timeout checks over a trace of iterations.  `start_time`
is the single `last_time` assignment made before the loop; the body never
updates it.  Returns `some t` when the session is sent a `timeout` status and
disconnected at check time `t`, `none` when the trace completes without a
timeout. -/
def run_ws_loop_timeout (timeout start_time : Int) : List WsIteration → Option Int
  | [] => none
  | it :: rest =>
    if timeout_fires timeout it.check_time start_time then some it.check_time
    else run_ws_loop_timeout timeout start_time rest

/-- Elapsed time since the last inbound activity (the quantity the claim
says the loop measures): the latest of the session's prior receive times,
falling back to the connect time. -/
def elapsed_since_last_activity (start_time : Int) (prior_recvs : List Int)
    (now : Int) : Int :=
  now - prior_recvs.foldl max start_time

/-- Counterexample to C5 as stated: with `timeout = 5` and connect time 0, a
session receiving messages every 2 time units (activity at 1, 3, 5) is
nevertheless timed out at the check at time 7, although only 2 time units —
less than the timeout — elapsed since its last inbound activity.  The code
measures from the loop's start, not from the last inbound activity. -/
theorem timeout_fires_despite_recent_activity :
    run_ws_loop_timeout 5 0
        [WsIteration.mk 1 1, WsIteration.mk 3 3, WsIteration.mk 5 5,
         WsIteration.mk 7 7] = some 7 ∧
    elapsed_since_last_activity 0 [1, 3, 5] 7 = 2 ∧ ¬ ((2 : Int) > 5) := by
  refine ⟨?_, ?_, ?_⟩ <;> decide

/-- Amended C5: the loop sends a `timeout` status and disconnects exactly at
the first check whose time exceeds the loop's start time by more than the
configured timeout; inbound activity is irrelevant, because `last_time` is
never updated after the loop starts.  (So a session is timed out once the
timeout has elapsed since connect, even if messages keep arriving.) -/
theorem timeout_measured_from_start_only (timeout start_time : Int)
    (iters : List WsIteration) :
    run_ws_loop_timeout timeout start_time iters =
      (iters.find? (fun it => timeout_fires timeout it.check_time start_time)).map
        WsIteration.check_time ∧
    run_ws_loop_timeout timeout start_time
        (iters.map (fun it => WsIteration.mk it.check_time 0)) =
      run_ws_loop_timeout timeout start_time iters := by
  induction iters with
  | nil => exact ⟨rfl, rfl⟩
  | cons it rest ih =>
    constructor
    · by_cases h : timeout_fires timeout it.check_time start_time
      · simp [run_ws_loop_timeout, List.find?, h]
      · simp [run_ws_loop_timeout, List.find?, h, ih.1]
    · by_cases h : timeout_fires timeout it.check_time start_time
      · simp [run_ws_loop_timeout, h]
      · simp [run_ws_loop_timeout, h, ih.2]

/-! ## Wire decoding (`ConnectionManager.receive_message`, binary frames)

The binary wire format is `[4-byte big-endian length][UTF-8 JSON header]
[trailing payload]`.  Bytes are embedded as `Nat` values below 256.  JSON
values are embedded by `JsonVal`; `loadsChars` embeds `json.loads`
restricted to the integer-number subset (floating-point literals are
rejected — none of the framing claims involve them), and `utf8Decode` /
`utf8Encode` embed `bytes.decode("utf-8")` / `str.encode("utf-8")` (without
the overlong-form rejection of a strict validator, which no claim
exercises).  Character codes are compared numerically throughout. -/

/-- A JSON value. -/
inductive JsonVal where
  | null
  | bool (b : Bool)
  | num (n : Int)
  | str (s : String)
  | arr (xs : List JsonVal)
  | obj (fields : List (String × JsonVal))
deriving Repr

/-- UTF-8 encoding of one character. -/
def utf8EncodeChar (c : Char) : List Nat :=
  let n := c.toNat
  if n < 128 then [n]
  else if n < 2048 then [192 + n / 64, 128 + n % 64]
  else if n < 65536 then [224 + n / 4096, 128 + n / 64 % 64, 128 + n % 64]
  else [240 + n / 262144, 128 + n / 4096 % 64, 128 + n / 64 % 64, 128 + n % 64]

/-- UTF-8 encoding of a string (`str.encode("utf-8")`). -/
def utf8Encode (s : String) : List Nat :=
  (s.data.map utf8EncodeChar).flatten

/-- A UTF-8 continuation byte. -/
def isContByte (b : Nat) : Bool :=
  128 ≤ b && b < 192

/-- Fueled UTF-8 decoder body; each step consumes at least one byte. -/
def utf8DecodeAux : Nat → List Nat → Option (List Char)
  | _, [] => some []
  | 0, _ :: _ => none
  | fuel + 1, b :: rest =>
    if b < 128 then
      match utf8DecodeAux fuel rest with
      | some cs => some (Char.ofNat b :: cs)
      | none => none
    else if 194 ≤ b && b ≤ 223 then
      match rest with
      | b1 :: rest1 =>
        if isContByte b1 then
          match utf8DecodeAux fuel rest1 with
          | some cs => some (Char.ofNat ((b - 192) * 64 + (b1 - 128)) :: cs)
          | none => none
        else none
      | [] => none
    else if 224 ≤ b && b ≤ 239 then
      match rest with
      | b1 :: b2 :: rest2 =>
        if isContByte b1 && isContByte b2 then
          match utf8DecodeAux fuel rest2 with
          | some cs =>
            some (Char.ofNat ((b - 224) * 4096 + (b1 - 128) * 64 + (b2 - 128)) :: cs)
          | none => none
        else none
      | _ => none
    else if 240 ≤ b && b ≤ 244 then
      match rest with
      | b1 :: b2 :: b3 :: rest3 =>
        if isContByte b1 && isContByte b2 && isContByte b3 then
          match utf8DecodeAux fuel rest3 with
          | some cs =>
            some (Char.ofNat
              ((b - 240) * 262144 + (b1 - 128) * 4096 + (b2 - 128) * 64 + (b3 - 128)) :: cs)
          | none => none
        else none
      | _ => none
    else none

/-- UTF-8 decoding (`bytes.decode("utf-8")`); `none` models
`UnicodeDecodeError`. -/
def utf8Decode (bs : List Nat) : Option (List Char) :=
  utf8DecodeAux (bs.length + 1) bs

/-- Skip JSON whitespace (space, tab, newline, carriage return). -/
def skipWs : List Char → List Char
  | [] => []
  | c :: rest =>
    if c.toNat = 32 || c.toNat = 9 || c.toNat = 10 || c.toNat = 13 then skipWs rest
    else c :: rest

/-- Value of a JSON string escape character. -/
def escChar (e : Char) : Option Char :=
  if e.toNat = 34 then some (Char.ofNat 34)
  else if e.toNat = 92 then some (Char.ofNat 92)
  else if e.toNat = 47 then some (Char.ofNat 47)
  else if e.toNat = 110 then some (Char.ofNat 10)
  else if e.toNat = 116 then some (Char.ofNat 9)
  else if e.toNat = 114 then some (Char.ofNat 13)
  else if e.toNat = 98 then some (Char.ofNat 8)
  else if e.toNat = 102 then some (Char.ofNat 12)
  else none

/-- Parse the body of a JSON string after the opening quote, returning the
content and the remainder after the closing quote. -/
def parseStringBody : List Char → Option (List Char × List Char)
  | [] => none
  | c :: rest =>
    if c.toNat = 34 then some ([], rest)
    else if c.toNat = 92 then
      match rest with
      | [] => none
      | e :: rest2 =>
        match escChar e with
        | none => none
        | some ch =>
          match parseStringBody rest2 with
          | some (content, rest3) => some (ch :: content, rest3)
          | none => none
    else
      match parseStringBody rest with
      | some (content, rest3) => some (c :: content, rest3)
      | none => none

/-- Decimal digit value of a character. -/
def digitVal (c : Char) : Option Nat :=
  if 48 ≤ c.toNat && c.toNat ≤ 57 then some (c.toNat - 48) else none

/-- Consume a run of decimal digits, accumulating their value. -/
def parseDigits : List Char → Nat → Nat × List Char
  | [], acc => (acc, [])
  | c :: rest, acc =>
    match digitVal c with
    | some d => parseDigits rest (acc * 10 + d)
    | none => (acc, c :: rest)

/-- Reject a number continuing with a fraction or exponent (floating-point
literals are outside this model). -/
def noFloatFollows : List Char → Bool
  | [] => true
  | c :: _ => !(c.toNat = 46 || c.toNat = 101 || c.toNat = 69)

mutual

/-- Fueled recursive-descent JSON value reader. -/
def parseVal : Nat → List Char → Option (JsonVal × List Char)
  | 0, _ => none
  | fuel + 1, cs =>
    match skipWs cs with
    | [] => none
    | c :: rest =>
      if c.toNat = 34 then
        match parseStringBody rest with
        | some (content, rest2) => some (JsonVal.str (String.mk content), rest2)
        | none => none
      else if c.toNat = 123 then
        match skipWs rest with
        | d :: rest2 =>
          if d.toNat = 125 then some (JsonVal.obj [], rest2)
          else
            match parseMembers fuel (d :: rest2) with
            | some (fields, rest3) => some (JsonVal.obj fields, rest3)
            | none => none
        | [] => none
      else if c.toNat = 91 then
        match skipWs rest with
        | d :: rest2 =>
          if d.toNat = 93 then some (JsonVal.arr [], rest2)
          else
            match parseItems fuel (d :: rest2) with
            | some (xs, rest3) => some (JsonVal.arr xs, rest3)
            | none => none
        | [] => none
      else if c.toNat = 116 then
        match rest with
        | c1 :: c2 :: c3 :: rest2 =>
          if c1.toNat = 114 && c2.toNat = 117 && c3.toNat = 101 then
            some (JsonVal.bool true, rest2)
          else none
        | _ => none
      else if c.toNat = 102 then
        match rest with
        | c1 :: c2 :: c3 :: c4 :: rest2 =>
          if c1.toNat = 97 && c2.toNat = 108 && c3.toNat = 115 && c4.toNat = 101 then
            some (JsonVal.bool false, rest2)
          else none
        | _ => none
      else if c.toNat = 110 then
        match rest with
        | c1 :: c2 :: c3 :: rest2 =>
          if c1.toNat = 117 && c2.toNat = 108 && c3.toNat = 108 then
            some (JsonVal.null, rest2)
          else none
        | _ => none
      else if c.toNat = 45 then
        match rest with
        | d :: rest2 =>
          match digitVal d with
          | some dv =>
            let p := parseDigits rest2 dv
            if noFloatFollows p.2 then some (JsonVal.num (-(Int.ofNat p.1)), p.2) else none
          | none => none
        | [] => none
      else
        match digitVal c with
        | some dv =>
          let p := parseDigits rest dv
          if noFloatFollows p.2 then some (JsonVal.num (Int.ofNat p.1), p.2) else none
        | none => none

/-- Object members: `"key": value` pairs separated by commas, terminated by
a closing brace. -/
def parseMembers : Nat → List Char → Option (List (String × JsonVal) × List Char)
  | 0, _ => none
  | fuel + 1, cs =>
    match skipWs cs with
    | c :: rest =>
      if c.toNat = 34 then
        match parseStringBody rest with
        | some (keyChars, rest2) =>
          match skipWs rest2 with
          | d :: rest3 =>
            if d.toNat = 58 then
              match parseVal fuel rest3 with
              | some (v, rest4) =>
                match skipWs rest4 with
                | e1 :: rest5 =>
                  if e1.toNat = 44 then
                    match parseMembers fuel rest5 with
                    | some (fields, rest6) =>
                      some ((String.mk keyChars, v) :: fields, rest6)
                    | none => none
                  else if e1.toNat = 125 then some ([(String.mk keyChars, v)], rest5)
                  else none
                | [] => none
              | none => none
            else none
          | [] => none
        | none => none
      else none
    | [] => none

/-- Array items: values separated by commas, terminated by a closing
bracket. -/
def parseItems : Nat → List Char → Option (List JsonVal × List Char)
  | 0, _ => none
  | fuel + 1, cs =>
    match parseVal fuel cs with
    | some (v, rest) =>
      match skipWs rest with
      | e1 :: rest2 =>
        if e1.toNat = 44 then
          match parseItems fuel rest2 with
          | some (xs, rest3) => some (v :: xs, rest3)
          | none => none
        else if e1.toNat = 93 then some ([v], rest2)
        else none
      | [] => none
    | none => none

end

/-- Embeds `json.loads` on decoded text: parse one value and require only
whitespace to remain (`Extra data` errors yield `none`). -/
def loadsChars (cs : List Char) : Option JsonVal :=
  match parseVal (cs.length + 1) cs with
  | some (v, rest) => if skipWs rest = [] then some v else none
  | none => none

/-- Embeds `int.from_bytes(bs, byteorder="big")`. -/
def beToNat (bs : List Nat) : Nat :=
  bs.foldl (fun acc b => acc * 256 + b) 0

/-- Embeds `n.to_bytes(4, byteorder="big")`. -/
def natToBe4 (n : Nat) : List Nat :=
  [n / 16777216 % 256, n / 65536 % 256, n / 256 % 256, n % 256]

/-- The sender-side binary framing (as built by the repository's test and
described by the wire-protocol section): length prefix, JSON header bytes,
then the raw payload. -/
def encodeFrame (headerBytes payload : List Nat) : List Nat :=
  natToBe4 headerBytes.length ++ headerBytes ++ payload

/-- The merged dict `{"status": data.get("status", "next_frame"), **params}`
built by `receive_message` when the decoded header contains `params`. -/
def mergedOf (data ps : List (String × JsonVal)) : List (String × JsonVal) :=
  ps.foldl (fun d kv => dictSet d kv.1 kv.2)
    [("status", (assocLookup data "status").getD (JsonVal.str "next_frame"))]

/-- Embeds the params-flattening step of `receive_message`: when the decoded
header has a `params` object its keys are merged to the top level alongside
`status`; a non-mapping `params` makes the `{**params}` splat raise (caught
by the method's `except`, yielding the empty result); without `params` the
header passes through unchanged. -/
def mergeParams (data : List (String × JsonVal)) :
    Option (List (String × JsonVal)) :=
  match assocLookup data "params" with
  | some (JsonVal.obj ps) => some (mergedOf data ps)
  | some _ => none
  | none => some data

/-- Embeds the `"bytes" in message` branch of
`ConnectionManager.receive_message`: length-prefix framing checks, UTF-8 and
JSON decoding of the header, params flattening, payload extraction.  Every
failure path — short frame, truncated frame, decode exception — returns
`({}, b"")` as the source does (its `except Exception` swallows decoding
errors).  A well-formed non-object header also lands in the exception path
of the model (the source's subsequent dict operations raise for non-dict
values such as numbers; no claim exercises that corner). -/
def receive_message_binary (binary_data : List Nat) :
    List (String × JsonVal) × List Nat :=
  if binary_data.length < 4 then ([], [])
  else
    let json_length := beToNat (binary_data.take 4)
    if binary_data.length < 4 + json_length then ([], [])
    else
      let json_bytes := (binary_data.drop 4).take json_length
      let image_bytes := binary_data.drop (4 + json_length)
      match utf8Decode json_bytes with
      | none => ([], [])
      | some chars =>
        match loadsChars chars with
        | none => ([], [])
        | some (JsonVal.obj fields) =>
          match mergeParams fields with
          | some result => (result, image_bytes)
          | none => ([], [])
        | some _ => ([], [])

theorem foldl_dictSet_lookup_notmem {β : Type} (ps : List (String × β)) :
    ∀ (d : List (String × β)) (k : String), k ∉ ps.map Prod.fst →
      assocLookup (ps.foldl (fun d0 kv => dictSet d0 kv.1 kv.2) d) k = assocLookup d k := by
  induction ps with
  | nil => intro d k _; rfl
  | cons hd tl ih =>
    intro d k hk
    simp only [List.map_cons, List.mem_cons] at hk
    push_neg at hk
    rw [List.foldl_cons, ih _ _ hk.2, dictSet_lookup_other]
    intro h
    exact hk.1 h.symm

theorem foldl_dictSet_lookup_mem {β : Type} (ps : List (String × β)) :
    ∀ (d : List (String × β)) (k : String) (v : β), (k, v) ∈ ps →
      (ps.map Prod.fst).Nodup →
      assocLookup (ps.foldl (fun d0 kv => dictSet d0 kv.1 kv.2) d) k = some v := by
  induction ps with
  | nil => intro d k v h _; simp at h
  | cons hd tl ih =>
    intro d k v hmem hnd
    obtain ⟨k0, v0⟩ := hd
    simp only [List.map_cons, List.nodup_cons] at hnd
    rcases List.mem_cons.mp hmem with heq | htl
    · obtain ⟨hk, hv⟩ := Prod.mk.injEq .. ▸ heq
      subst hk; subst hv
      rw [List.foldl_cons, foldl_dictSet_lookup_notmem tl _ _ hnd.1]
      exact dictSet_lookup_self d k v
    · exact List.foldl_cons .. ▸ ih _ k v htl hnd.2

theorem assocLookup_none_notmem {β : Type} (l : List (String × β)) (k : String)
    (h : assocLookup l k = none) : k ∉ l.map Prod.fst := by
  induction l with
  | nil => simp
  | cons hd tl ih =>
    obtain ⟨k0, v0⟩ := hd
    by_cases hk : k0 = k
    · subst hk
      simp [assocLookup] at h
    · simp only [assocLookup, hk, if_false] at h
      simp only [List.map_cons, List.mem_cons]
      push_neg
      exact ⟨fun hh => hk hh.symm, ih h⟩

/-- The concrete JSON header of the C7 claim, exactly as serialized by
`json.dumps({"status": "next_frame", "params": {"prompt": "x"}})`. -/
def claimHeader : String :=
  "\x7b\"status\": \"next_frame\", \"params\": \x7b\"prompt\": \"x\"\x7d\x7d"

/-- C7: decoding the binary frame built from the claim's header plus payload
`b"IMG"` via `receive_message` yields the flattened dict
`{"status": "next_frame", "prompt": "x"}` and the payload bytes unchanged;
and in general, whenever the decoded header carries a `params` object, every
`params` key is merged to the top level with its value, alongside a `status`
key defaulting to `"next_frame"`. -/
theorem receive_message_binary_roundtrip :
    receive_message_binary (encodeFrame (utf8Encode claimHeader) [73, 77, 71]) =
      ([("status", JsonVal.str "next_frame"), ("prompt", JsonVal.str "x")],
       [73, 77, 71]) ∧
    ∀ (data ps : List (String × JsonVal)),
      assocLookup data "params" = some (JsonVal.obj ps) →
      (ps.map Prod.fst).Nodup →
      mergeParams data = some (mergedOf data ps) ∧
      (∀ k v, (k, v) ∈ ps → assocLookup (mergedOf data ps) k = some v) ∧
      (assocLookup ps "status" = none →
        assocLookup (mergedOf data ps) "status" =
          some ((assocLookup data "status").getD (JsonVal.str "next_frame"))) := by
  constructor
  · rfl
  · intro data ps hps hnd
    refine ⟨by simp [mergeParams, hps], ?_, ?_⟩
    · intro k v hmem
      exact foldl_dictSet_lookup_mem ps _ k v hmem hnd
    · intro hst
      rw [mergedOf, foldl_dictSet_lookup_notmem ps _ _ (assocLookup_none_notmem ps _ hst)]
      rfl

/-- Witness for C7: the general merge statement applied to the claim's
concrete decoded header. -/
theorem receive_message_binary_roundtrip_witness :
    mergeParams
        [("status", JsonVal.str "next_frame"),
         ("params", JsonVal.obj [("prompt", JsonVal.str "x")])] =
      some (mergedOf
        [("status", JsonVal.str "next_frame"),
         ("params", JsonVal.obj [("prompt", JsonVal.str "x")])]
        [("prompt", JsonVal.str "x")]) ∧
    assocLookup (mergedOf
        [("status", JsonVal.str "next_frame"),
         ("params", JsonVal.obj [("prompt", JsonVal.str "x")])]
        [("prompt", JsonVal.str "x")]) "prompt" = some (JsonVal.str "x") ∧
    assocLookup (mergedOf
        [("status", JsonVal.str "next_frame"),
         ("params", JsonVal.obj [("prompt", JsonVal.str "x")])]
        [("prompt", JsonVal.str "x")]) "status" = some (JsonVal.str "next_frame") := by
  have h := (receive_message_binary_roundtrip.2
    [("status", JsonVal.str "next_frame"),
     ("params", JsonVal.obj [("prompt", JsonVal.str "x")])]
    [("prompt", JsonVal.str "x")] rfl (by simp))
  exact ⟨h.1, h.2.1 "prompt" (JsonVal.str "x") (by simp), h.2.2 rfl⟩

/-! ## Malformed inbound messages (`receive_message` + loop dispatch) -/

/-- The malformedness condition of the C9 claim on a binary frame: the
framing fails (short or truncated frame) or the header fails UTF-8 or JSON
decoding.  Mirrors the checks and exception sources of the `"bytes"` branch
of `receive_message`. -/
def binary_decode_fails (bs : List Nat) : Bool :=
  if bs.length < 4 then true
  else
    let json_length := beToNat (bs.take 4)
    if bs.length < 4 + json_length then true
    else
      match utf8Decode ((bs.drop 4).take json_length) with
      | none => true
      | some chars => (loadsChars chars).isNone

/-- What the protocol loop does right after `receive_message` returns:
`if not data: await asyncio.sleep(0.01); continue` — an empty decoded dict
makes the loop sleep briefly and continue; a nonempty one proceeds to the
status dispatch. -/
inductive WsLoopStep where
  | continued
  | dispatched
  | exited
deriving DecidableEq, Repr

/-- Embeds lines `if not data: await asyncio.sleep(0.01); continue` of
`SessionAPI._handle_websocket_loop`.  No connection-manager state is read or
written on the `continued` path. -/
def ws_iteration_after_receive (decoded : List (String × JsonVal)) : WsLoopStep :=
  if decoded.isEmpty then WsLoopStep.continued else WsLoopStep.dispatched

/-- Counterexample to C9 as stated: for the concrete malformed frame whose
header bytes `"abc"` fail JSON decoding, `receive_message` swallows the
error and returns an empty result, and the loop *continues* to its next
iteration — it does not disconnect the session and exit as the claim says. -/
theorem malformed_message_counterexample :
    receive_message_binary ([0, 0, 0, 3] ++ utf8Encode "abc") = ([], []) ∧
    ws_iteration_after_receive
        (receive_message_binary ([0, 0, 0, 3] ++ utf8Encode "abc")).1 =
      WsLoopStep.continued ∧
    WsLoopStep.continued ≠ WsLoopStep.exited := by
  refine ⟨rfl, rfl, by decide⟩

/-- Amended C9: a malformed inbound binary message (failed framing or failed
UTF-8/JSON decoding) is swallowed: `receive_message` returns the empty
result, the receive loop sleeps and continues to its next iteration rather
than terminating, and no session or service state is touched (the decode is
a pure function of the message and the `continued` path performs no
connection-manager operation). -/
theorem malformed_message_swallowed (bs : List Nat)
    (h : binary_decode_fails bs = true) :
    receive_message_binary bs = ([], []) ∧
    ws_iteration_after_receive (receive_message_binary bs).1 =
      WsLoopStep.continued := by
  have hmain : receive_message_binary bs = ([], []) := by
    unfold binary_decode_fails at h
    unfold receive_message_binary
    by_cases h1 : bs.length < 4
    · simp [h1]
    · simp only [h1, if_false] at h ⊢
      by_cases h2 : bs.length < 4 + beToNat (bs.take 4)
      · simp [h2]
      · simp only [h2, if_false] at h ⊢
        cases hdec : utf8Decode ((bs.drop 4).take (beToNat (bs.take 4))) with
        | none => rfl
        | some chars =>
          rw [hdec] at h
          simp only [Option.isNone_iff_eq_none] at h
          simp [h]
  exact ⟨hmain, by rw [hmain]; rfl⟩

/-- Witness for amended C9 at a concrete truncated frame (the length prefix
claims five header bytes but none follow). -/
theorem malformed_message_swallowed_witness :
    receive_message_binary [0, 0, 0, 5] = ([], []) ∧
    ws_iteration_after_receive (receive_message_binary [0, 0, 0, 5]).1 =
      WsLoopStep.continued :=
  malformed_message_swallowed [0, 0, 0, 5] rfl

/-! ## Session service (`app/services/session_service.py`)

`SessionService` owns one pipeline (engine handle) plus the `SessionAPI`
facade and its connection manager.  Config dicts are embedded as association
lists of `Option V` values, `none` standing for Python `None` (the sentinel
that `_apply_overrides` treats as "remove this key").  An engine handle is
"alive" until its resources are torn down (`del pipeline.stream` /
`_cleanup_pipeline_resources`). -/

/-- An engine handle (pipeline instance): its identity and whether its
resources are still alive. -/
structure EngineHandle where
  pid : Nat
  alive : Bool
deriving DecidableEq, Repr

/-- Number of live engine handles among an optional reference: 0 or 1. -/
def live (p : Option EngineHandle) : Nat :=
  match p with
  | some h => if h.alive then 1 else 0
  | none => 0

/-- Tearing an engine handle down (`del pipeline.stream`,
`_cleanup_pipeline_resources`). -/
def killEngine (h : EngineHandle) : EngineHandle :=
  { h with alive := false }

/-- Embeds the `SessionService` state relevant to the claims: the immutable
constructor config, the persistent override layer, the `ServiceState` fields
(`pipeline`, `config`, `initialized`), the session ids registered with the
current connection manager, and a counter minting pipeline identities. -/
structure ServiceModel (V : Type) where
  base_config : List (String × Option V)
  persistent_overrides : List (String × Option V)
  state_pipeline : Option EngineHandle
  state_config : List (String × Option V)
  state_initialized : Bool
  sessions : List SessionId
  next_pid : Nat
deriving Repr

/-- Embeds `SessionService._apply_overrides`: for each override entry in
order, a `None` value pops the key from the target, any other value is
stored. -/
def applyOverrides {V : Type} (target ovr : List (String × Option V)) :
    List (String × Option V) :=
  ovr.foldl
    (fun t kv =>
      match kv.2 with
      | none => dictPop t kv.1
      | some v => dictSet t kv.1 (some v))
    target

/-- Truthiness of the optional `overrides` argument (`if persist and
overrides:`): present and nonempty. -/
def ovrTruthy {V : Type} (ovr : Option (List (String × Option V))) : Bool :=
  match ovr with
  | none => false
  | some l => !l.isEmpty

/-- The merged config computed by `_initialize_pipeline`: copy the base
config, apply the persistent overrides (guarded by
`if self._persistent_overrides:`), then the ephemeral ones (guarded by
`if ephemeral_overrides:`). -/
def computeConfig {V : Type} (base persistent : List (String × Option V))
    (eph : Option (List (String × Option V))) : List (String × Option V) :=
  let c := if persistent.isEmpty then base else applyOverrides base persistent
  match eph with
  | none => c
  | some e => if e.isEmpty then c else applyOverrides c e

/-- Embeds `SessionAPI.shutdown_api` as called at the start of `reload`:
every session of the connection manager is disconnected (best effort), and
the pipeline's resources are released (`del self._pipeline.stream` /
`del self._pipeline`). -/
def shutdown_api {V : Type} (m : ServiceModel V) : ServiceModel V :=
  { m with sessions := [], state_pipeline := m.state_pipeline.map killEngine }

/-- The old pipeline reference after the cleanup step at the top of
`_initialize_pipeline` (`if self._state.initialized and self._state.pipeline
is not None: self._cleanup_pipeline_resources(...)`). -/
def oldPipeAfterCleanup {V : Type} (m : ServiceModel V) : Option EngineHandle :=
  if m.state_initialized && m.state_pipeline.isSome then m.state_pipeline.map killEngine
  else m.state_pipeline

/-- Embeds `SessionService._initialize_pipeline`: clean up the old pipeline,
merge the config, construct a new pipeline, wire a fresh connection manager
through `init_api` (no sessions), and swap the new `ServiceState` in. -/
def initPipelineFinal {V : Type} (m : ServiceModel V)
    (eph : Option (List (String × Option V))) : ServiceModel V :=
  { m with
    state_pipeline := some (EngineHandle.mk m.next_pid true)
    state_config := computeConfig m.base_config m.persistent_overrides eph
    state_initialized := true
    sessions := []
    next_pid := m.next_pid + 1 }

/-- Live-engine counts at the intermediate points of
`_initialize_pipeline`: on entry; after cleaning up the old pipeline; after
constructing the new pipeline (the old one still referenced by `_state`,
the new one local); after the state swap. -/
def initPipelineLiveTrace {V : Type} (m : ServiceModel V)
    (eph : Option (List (String × Option V))) : List Nat :=
  [live m.state_pipeline,
   live (oldPipeAfterCleanup m),
   live (oldPipeAfterCleanup m) + live (some (EngineHandle.mk m.next_pid true)),
   live (initPipelineFinal m eph).state_pipeline]

/-- Embeds `SessionService.reload`: under the service lock, shut the API
down (disconnecting every session), then either fold the overrides into the
persistent layer and re-create the pipeline, or re-create it with the
overrides applied ephemerally. -/
def service_reload {V : Type} (m : ServiceModel V)
    (ovr : Option (List (String × Option V))) (persist : Bool) : ServiceModel V :=
  let m1 := shutdown_api m
  if persist && ovrTruthy ovr then
    initPipelineFinal
      { m1 with
        persistent_overrides := applyOverrides m1.persistent_overrides (ovr.getD []) }
      none
  else
    initPipelineFinal m1 ovr

/-- Live-engine counts at every intermediate point of `reload`: on entry,
after `shutdown_api`, then through `_initialize_pipeline`. -/
def service_reload_live_trace {V : Type} (m : ServiceModel V)
    (ovr : Option (List (String × Option V))) (persist : Bool) : List Nat :=
  live m.state_pipeline :: live (shutdown_api m).state_pipeline ::
    (if persist && ovrTruthy ovr then
      initPipelineLiveTrace
        { (shutdown_api m) with
          persistent_overrides :=
            applyOverrides (shutdown_api m).persistent_overrides (ovr.getD []) }
        none
    else
      initPipelineLiveTrace (shutdown_api m) ovr)

theorem live_le_one (p : Option EngineHandle) : live p ≤ 1 := by
  cases p with
  | none => exact Nat.zero_le 1
  | some h => cases hh : h.alive <;> simp [live, hh]

theorem live_shutdown {V : Type} (m : ServiceModel V) :
    live (shutdown_api m).state_pipeline = 0 := by
  cases hsp : m.state_pipeline with
  | none => simp [shutdown_api, hsp, live]
  | some h => simp [shutdown_api, hsp, live, killEngine]

theorem live_oldPipeAfterCleanup_of_dead {V : Type} (m : ServiceModel V)
    (h : live m.state_pipeline = 0) : live (oldPipeAfterCleanup m) = 0 := by
  unfold oldPipeAfterCleanup
  split
  · cases hsp : m.state_pipeline with
    | none => simp [live]
    | some hh => simp [live, killEngine]
  · exact h

/-- C6: a completed `reload` leaves zero sessions connected and exactly one
live engine handle; every intermediate point of the reload (entry,
post-shutdown, post-cleanup, post-construction, post-swap) sees at most one
live engine handle — the old pair is torn down before the new pipeline is
constructed and activated. -/
theorem reload_disconnects_all_single_engine {V : Type} (m : ServiceModel V)
    (ovr : Option (List (String × Option V))) (persist : Bool) (n : Nat)
    (hinit : m.state_initialized = true)
    (hsess : m.sessions.length = n) :
    (service_reload m ovr persist).sessions.length = 0 ∧
    live (service_reload m ovr persist).state_pipeline = 1 ∧
    ∀ c ∈ service_reload_live_trace m ovr persist, c ≤ 1 := by
  have h1 : live (shutdown_api m).state_pipeline = 0 := live_shutdown m
  refine ⟨?_, ?_, ?_⟩
  · unfold service_reload
    split <;> rfl
  · unfold service_reload
    split <;> simp [initPipelineFinal, live]
  · intro c hc
    unfold service_reload_live_trace at hc
    rcases List.mem_cons.mp hc with hc0 | hc'
    · exact hc0 ▸ live_le_one m.state_pipeline
    rcases List.mem_cons.mp hc' with hc1 | hc2
    · rw [hc1, h1]
      exact Nat.zero_le 1
    · revert hc2
      split
      · intro hc2
        set m2 : ServiceModel V :=
          { (shutdown_api m) with
            persistent_overrides :=
              applyOverrides (shutdown_api m).persistent_overrides (ovr.getD []) } with hm2
        have h2 : live m2.state_pipeline = 0 := h1
        have h3 : live (oldPipeAfterCleanup m2) = 0 :=
          live_oldPipeAfterCleanup_of_dead m2 h2
        simp only [initPipelineLiveTrace, List.mem_cons, List.mem_singleton] at hc2
        rcases hc2 with h | h | h | h | h
        · rw [h, h2]; exact Nat.zero_le 1
        · rw [h, h3]; exact Nat.zero_le 1
        · rw [h, h3]; simp [live]
        · rw [h]; simp [initPipelineFinal, live]
        · simp at h
      · intro hc2
        have h3 : live (oldPipeAfterCleanup (shutdown_api m)) = 0 :=
          live_oldPipeAfterCleanup_of_dead (shutdown_api m) h1
        simp only [initPipelineLiveTrace, List.mem_cons, List.mem_singleton] at hc2
        rcases hc2 with h | h | h | h | h
        · rw [h, h1]; exact Nat.zero_le 1
        · rw [h, h3]; exact Nat.zero_le 1
        · rw [h, h3]; simp [live]
        · rw [h]; simp [initPipelineFinal, live]
        · simp at h

/-- Witness for C6: a concrete initialized service with three connected
sessions and one live engine. -/
theorem reload_disconnects_all_single_engine_witness :
    (service_reload
        (ServiceModel.mk (V := Int) [("model_id", some 1)] [] (some (EngineHandle.mk 0 true))
          [("model_id", some 1)] true [1, 2, 3] 1)
        (some [("steps", some 4)]) false).sessions.length = 0 ∧
    live (service_reload
        (ServiceModel.mk (V := Int) [("model_id", some 1)] [] (some (EngineHandle.mk 0 true))
          [("model_id", some 1)] true [1, 2, 3] 1)
        (some [("steps", some 4)]) false).state_pipeline = 1 ∧
    ∀ c ∈ service_reload_live_trace
        (ServiceModel.mk (V := Int) [("model_id", some 1)] [] (some (EngineHandle.mk 0 true))
          [("model_id", some 1)] true [1, 2, 3] 1)
        (some [("steps", some 4)]) false, c ≤ 1 :=
  reload_disconnects_all_single_engine
    (ServiceModel.mk [("model_id", some 1)] [] (some (EngineHandle.mk 0 true))
      [("model_id", some 1)] true [1, 2, 3] 1)
    (some [("steps", some 4)]) false 3 rfl rfl

theorem lastAssoc_cons {β : Type} (e : String × β) (rest : List (String × β))
    (k : String) :
    lastAssoc (e :: rest) k =
      match lastAssoc rest k with
      | some w => some w
      | none => if e.1 = k then some e.2 else none := by
  obtain ⟨k0, v0⟩ := e
  unfold lastAssoc
  rw [List.reverse_cons, assocLookup_append]
  rfl

/-- Pointwise characterization of `_apply_overrides`: the last override
entry for a key wins; a `None` override removes the key; untouched keys keep
the target's binding. -/
theorem applyOverrides_lookup {V : Type} (ovr : List (String × Option V)) :
    ∀ (t : List (String × Option V)) (k : String),
      assocLookup (applyOverrides t ovr) k =
        match lastAssoc ovr k with
        | some none => none
        | some (some v) => some (some v)
        | none => assocLookup t k := by
  induction ovr with
  | nil => intro t k; rfl
  | cons e rest ih =>
    intro t k
    obtain ⟨k0, v0⟩ := e
    have hstep : applyOverrides t ((k0, v0) :: rest) =
        applyOverrides
          (match v0 with
           | none => dictPop t k0
           | some v => dictSet t k0 (some v)) rest := rfl
    rw [hstep, ih, lastAssoc_cons]
    cases hrest : lastAssoc rest k with
    | some w => cases w <;> rfl
    | none =>
      cases v0 with
      | none =>
        by_cases hk : k0 = k
        · subst hk
          simp [dictPop_lookup_self]
        · simp [hk, dictPop_lookup_other t k0 k hk]
      | some v =>
        by_cases hk : k0 = k
        · subst hk
          simp [dictSet_lookup_self]
        · simp [hk, dictSet_lookup_other t k0 k (some v) hk]

/-- C8: override merging — (1) pointwise, an overridden key maps to its
override value and a key overridden with the `None` sentinel disappears
from the merged result, other keys keeping the target's binding; (2) in the
config computed by `_initialize_pipeline`, the ephemeral layer is applied
after (and wins over) the persistent-merged result; (3) a
`reload(persist=False)` never retains its ephemeral overrides: the
persistent layer and base config are unchanged and a later reload without
overrides computes a merged config unaffected by the earlier ephemeral
ones. -/
theorem override_merge_semantics {V : Type} :
    (∀ (t ovr : List (String × Option V)) (k : String),
      assocLookup (applyOverrides t ovr) k =
        match lastAssoc ovr k with
        | some none => none
        | some (some v) => some (some v)
        | none => assocLookup t k) ∧
    (∀ (base pers eph : List (String × Option V)) (k : String),
      assocLookup (computeConfig base pers (some eph)) k =
        match lastAssoc eph k with
        | some none => none
        | some (some v) => some (some v)
        | none => assocLookup (computeConfig base pers none) k) ∧
    (∀ (m : ServiceModel V) (ovr : Option (List (String × Option V))),
      (service_reload m ovr false).persistent_overrides = m.persistent_overrides ∧
      (service_reload m ovr false).base_config = m.base_config ∧
      (service_reload (service_reload m ovr false) none false).state_config =
        (service_reload m none false).state_config) := by
  refine ⟨fun t ovr k => applyOverrides_lookup ovr t k, ?_, ?_⟩
  · intro base pers eph k
    unfold computeConfig
    cases heph : eph with
    | nil => rfl
    | cons e rest =>
      simp only [List.isEmpty_cons, if_false, Bool.false_eq_true]
      rw [applyOverrides_lookup]
  · intro m ovr
    exact ⟨rfl, rfl, rfl⟩
